import Mathlib

/-!
Shallow embedding of the WebAuthn/passkey core of the repository
(`app/auth/webauthn_service.py`, `app/repositories/passkey_repository.py`,
`app/api/passkey.py`) together with proofs about the spec's claims.

Bytes are modelled as `List Nat` (each entry a byte value), machine integers
as `Nat`/`Int` with explicit bounds where the code relies on them, Python's
`(bool, dict)` result convention as `Except String result`, and the mutable
in-process challenge cache as a function `Int → Option ChallengeEntry`
threaded explicitly.  Wall-clock time is an explicit `Int` parameter in
microseconds, matching the resolution of `datetime.utcnow()`.

Cryptographic primitives (SHA-256 and P-256 ECDSA verification, provided in
the source by `hashlib` and `cryptography`) are modelled as parameters
gathered in a `Crypto` structure: the service code only ever compares their
outputs, so every theorem below quantifies over them.
-/

namespace WebAuthn

/-- Big-endian 16-bit unsigned decode, models `struct.unpack('>H', b)`:
defined exactly on 2-byte inputs (Python raises `struct.error` otherwise,
which the service's `except` clause turns into a failure result). -/
def beUint16 : List Nat → Option Nat
  | [a, b] => some (a * 256 + b)
  | _ => none

/-- Big-endian 32-bit unsigned decode, models `struct.unpack('>I', b)`:
defined exactly on 4-byte inputs. -/
def beUint32 : List Nat → Option Nat
  | [a, b, c, d] => some (((a * 256 + b) * 256 + c) * 256 + d)
  | _ => none

/-- Models Python `int.from_bytes(bs, byteorder='big')`. -/
def intFromBytesBE (bs : List Nat) : Nat :=
  bs.foldl (fun acc b => acc * 256 + b) 0

/-- Lower-case hex digit for a value below 16. -/
def hexDigit (n : Nat) : Char :=
  if n < 10 then Char.ofNat (48 + n) else Char.ofNat (87 + n)

/-- Models Python `bytes.hex()`: two lower-case hex digits per byte. -/
def bytesToHex (bs : List Nat) : String :=
  String.mk (bs.foldr (fun b acc => hexDigit (b / 16 % 16) :: hexDigit (b % 16) :: acc) [])

/-- Models Python `str.encode()` for the ASCII strings the service hashes
and compares (relying-party ids, challenges). -/
def strBytes (s : String) : List Nat :=
  s.data.map Char.toNat

/-- Value of one character of the URL-safe base64 alphabet
(`A-Z`, `a-z`, `0-9`, `-`, `_`). -/
def b64urlCharVal (c : Char) : Option Nat :=
  let n := c.toNat
  if 65 ≤ n ∧ n ≤ 90 then some (n - 65)
  else if 97 ≤ n ∧ n ≤ 122 then some (n - 97 + 26)
  else if 48 ≤ n ∧ n ≤ 57 then some (n - 48 + 52)
  else if n = 45 then some 62
  else if n = 95 then some 63
  else none

/-- Decode a base64 character list, four characters at a time, with `=`
padding allowed only in the final quantum.  Models
`base64.urlsafe_b64decode` on its documented alphabet; a character outside
the alphabet makes the decode fail (the service then takes its caught
exception path). -/
def b64Quanta : List Char → Option (List Nat)
  | [] => some []
  | a :: b :: c :: d :: rest =>
    match b64urlCharVal a, b64urlCharVal b with
    | some va, some vb =>
      if c = '=' then
        if d = '=' ∧ rest = [] then some [va * 4 + vb / 16] else none
      else
        match b64urlCharVal c with
        | some vc =>
          if d = '=' then
            if rest = [] then some [va * 4 + vb / 16, vb % 16 * 16 + vc / 4] else none
          else
            match b64urlCharVal d with
            | some vd =>
              (b64Quanta rest).map
                (fun tail =>
                  (va * 4 + vb / 16) :: (vb % 16 * 16 + vc / 4) :: (vc % 4 * 64 + vd) :: tail)
            | none => none
        | none => none
    | _, _ => none
  | _ => none

/-- Models the service's `_decode_base64url`: pad the string length to a
multiple of four with `=` and base64url-decode it. -/
def decode_base64url (s : String) : Option (List Nat) :=
  let padding := 4 - s.length % 4
  let padded := if padding ≠ 4 then s ++ String.mk (List.replicate padding '=') else s
  b64Quanta padded.data

/-- Character of the URL-safe base64 alphabet for a sextet value. -/
def b64urlChar (n : Nat) : Char :=
  if n < 26 then Char.ofNat (65 + n)
  else if n < 52 then Char.ofNat (97 + n - 26)
  else if n < 62 then Char.ofNat (48 + n - 52)
  else if n = 62 then '-'
  else '_'

/-- Encode bytes in URL-safe base64 without padding. -/
def b64Encode : List Nat → List Char
  | [] => []
  | [a] => [b64urlChar (a / 4 % 64), b64urlChar (a % 4 * 16)]
  | [a, b] => [b64urlChar (a / 4 % 64), b64urlChar (a % 4 * 16 + b / 16 % 16),
               b64urlChar (b % 16 * 4)]
  | a :: b :: c :: rest =>
    b64urlChar (a / 4 % 64) :: b64urlChar (a % 4 * 16 + b / 16 % 16) ::
    b64urlChar (b % 16 * 4 + c / 64 % 4) :: b64urlChar (c % 64) :: b64Encode rest

/-- Models `base64.urlsafe_b64encode(bs).decode('utf-8').rstrip('=')`. -/
def encode_base64url_nopad (bs : List Nat) : String :=
  String.mk (b64Encode bs)

/-- CBOR data items as decoded by `cbor2.loads` on the fragment the service
uses: integers, byte strings, text strings, arrays and maps.  Tags, floats,
simple values and indefinite-length items are outside the modelled fragment;
inputs using them decode to `none`, which the service observes as its caught
exception path. -/
inductive Cbor where
  | int (n : Int)
  | bytes (bs : List Nat)
  | text (s : String)
  | arr (xs : List Cbor)
  | map (kvs : List (Cbor × Cbor))

/-- CBOR map keys decoded by the model must land in Python's hashable
fragment (int, str, bytes): `cbor2` building a dict from an array- or
map-valued key raises, which the service observes as a failure. -/
def Cbor.isHashableKey : Cbor → Bool
  | .int _ => true
  | .bytes _ => true
  | .text _ => true
  | _ => false

/-- Equality test between two scalar (hashable) CBOR values; used to model
Python dict lookup on decoded maps. -/
def Cbor.keyMatches : Cbor → Cbor → Bool
  | .int a, .int b => a == b
  | .bytes a, .bytes b => a == b
  | .text a, .text b => a == b
  | _, _ => false

/-- Read the argument of a CBOR head byte: minor values below 24 are
immediate, 24/25/26/27 read 1/2/4/8 following bytes big-endian. -/
def cborReadArg (minor : Nat) (rest : List Nat) : Option (Nat × List Nat) :=
  if minor < 24 then some (minor, rest)
  else if minor = 24 then
    match rest with
    | b :: r => some (b, r)
    | _ => none
  else if minor = 25 then
    match rest with
    | a :: b :: r => some (a * 256 + b, r)
    | _ => none
  else if minor = 26 then
    match rest with
    | a :: b :: c :: d :: r => some (((a * 256 + b) * 256 + c) * 256 + d, r)
    | _ => none
  else if minor = 27 then
    match rest with
    | a :: b :: c :: d :: e :: f :: g :: h :: r =>
      some (((((((a * 256 + b) * 256 + c) * 256 + d) * 256 + e) * 256 + f) * 256 + g) * 256 + h, r)
    | _ => none
  else none

/-- Decode text-string payload bytes as ASCII (the fragment of UTF-8 the
service's keys use); a byte at 128 or above is outside the model. -/
def asciiString : List Nat → Option String
  | [] => some ""
  | b :: r =>
    if b < 128 then (asciiString r).map (fun s => String.mk (Char.ofNat b :: s.data))
    else none

mutual

/-- Fuel-indexed CBOR item decoder following RFC 8949 on the modelled
fragment; returns the item and the unconsumed suffix. -/
def cborItem : Nat → List Nat → Option (Cbor × List Nat)
  | 0, _ => none
  | _ + 1, [] => none
  | fuel + 1, b :: rest =>
    let major := b / 32
    let minor := b % 32
    if major = 0 then
      (cborReadArg minor rest).map (fun p => (Cbor.int (p.1 : Int), p.2))
    else if major = 1 then
      (cborReadArg minor rest).map (fun p => (Cbor.int (-1 - (p.1 : Int)), p.2))
    else if major = 2 then
      match cborReadArg minor rest with
      | some (n, r) => if n ≤ r.length then some (Cbor.bytes (r.take n), r.drop n) else none
      | none => none
    else if major = 3 then
      match cborReadArg minor rest with
      | some (n, r) =>
        if n ≤ r.length then
          (asciiString (r.take n)).map (fun s => (Cbor.text s, r.drop n))
        else none
      | none => none
    else if major = 4 then
      match cborReadArg minor rest with
      | some (n, r) => (cborSeq fuel n r).map (fun p => (Cbor.arr p.1, p.2))
      | none => none
    else if major = 5 then
      match cborReadArg minor rest with
      | some (n, r) => (cborPairs fuel n r).map (fun p => (Cbor.map p.1, p.2))
      | none => none
    else none


/-- Decode `n` consecutive CBOR items. -/
def cborSeq : Nat → Nat → List Nat → Option (List Cbor × List Nat)
  | _, 0, bs => some ([], bs)
  | 0, _ + 1, _ => none
  | fuel + 1, n + 1, bs =>
    match cborItem fuel bs with
    | some (x, r) =>
      match cborSeq fuel n r with
      | some (xs, r') => some (x :: xs, r')
      | none => none
    | none => none

/-- Decode `n` consecutive CBOR key-value pairs. -/
def cborPairs : Nat → Nat → List Nat → Option (List (Cbor × Cbor) × List Nat)
  | _, 0, bs => some ([], bs)
  | 0, _ + 1, _ => none
  | fuel + 1, n + 1, bs =>
    match cborItem fuel bs with
    | some (k, r) =>
      if k.isHashableKey then
        match cborItem fuel r with
        | some (v, r') =>
          match cborPairs fuel n r' with
          | some (kvs, r'') => some ((k, v) :: kvs, r'')
          | none => none
        | none => none
      else none
    | none => none

end

/-- Models `cbor2.loads`: decode the first CBOR item of the byte string
(`cbor2.loads` ignores trailing bytes); fail on an empty or malformed
input.  The fuel bound is generous: every decoding step either consumes a
byte or closes an item. -/
def cbor2_loads (bs : List Nat) : Option Cbor :=
  (cborItem (2 * bs.length + 4) bs).map Prod.fst

/-- Lookup in a decoded CBOR map with Python-dict semantics: a duplicated
key keeps its last value, a missing key gives `None`.  Models
`decoded.get(k)`. -/
def cborMapGet (kvs : List (Cbor × Cbor)) (k : Cbor) : Option Cbor :=
  (kvs.reverse.find? (fun p => p.1.keyMatches k)).map Prod.snd

/-- Integer view of an optional CBOR value; `intVal c = some n` exactly when
`c` holds the integer `n`.  Models Python comparisons such as
`decoded.get(1) == 2` on the modelled fragment. -/
def intVal : Option Cbor → Option Int
  | some (Cbor.int n) => some n
  | _ => none

/-- Byte-string view of an optional CBOR value. -/
def bytesVal : Option Cbor → Option (List Nat)
  | some (Cbor.bytes bs) => some bs
  | _ => none

end WebAuthn

namespace WebAuthn

/-- JSON values in the fragment `json.loads` is exercised on by the service:
client data objects are flat, with string, boolean, integer or null fields.
Nested objects/arrays, floats and non-ASCII text are outside the model;
inputs using them fail to parse, which the service observes as its caught
exception path. -/
inductive JValue where
  | str (s : String)
  | num (n : Int)
  | bool (b : Bool)
  | null
deriving Repr, DecidableEq, Inhabited

/-- Skip JSON whitespace bytes (space, tab, newline, carriage return). -/
def jsonSkipWs : List Nat → List Nat
  | [] => []
  | b :: r => if b = 32 ∨ b = 9 ∨ b = 10 ∨ b = 13 then jsonSkipWs r else b :: r

/-- Resolve a JSON single-character escape (byte after the backslash). -/
def jsonEscape (b : Nat) : Option Char :=
  if b = 34 then some (Char.ofNat 34)
  else if b = 92 then some (Char.ofNat 92)
  else if b = 47 then some (Char.ofNat 47)
  else if b = 98 then some (Char.ofNat 8)
  else if b = 102 then some (Char.ofNat 12)
  else if b = 110 then some (Char.ofNat 10)
  else if b = 114 then some (Char.ofNat 13)
  else if b = 116 then some (Char.ofNat 9)
  else none

/-- Parse the body of a JSON string after the opening quote, up to and
including the closing quote; printable ASCII and single-character escapes. -/
def jsonStringAux : List Nat → Option (String × List Nat)
  | [] => none
  | 34 :: r => some ("", r)
  | 92 :: e :: r =>
    match jsonEscape e with
    | some c => (jsonStringAux r).map (fun p => (String.mk (c :: p.1.data), p.2))
    | none => none
  | b :: r =>
    if 32 ≤ b ∧ b ≤ 127 ∧ b ≠ 34 ∧ b ≠ 92 then
      (jsonStringAux r).map (fun p => (String.mk (Char.ofNat b :: p.1.data), p.2))
    else none

/-- Parse a non-empty run of decimal digits. -/
def jsonDigits : List Nat → Option (Nat × List Nat)
  | b :: r =>
    if 48 ≤ b ∧ b ≤ 57 then
      match jsonDigits r with
      | some (n, rest) => some ((b - 48) * 10 ^ (r.length - rest.length) + n, rest)
      | none => some (b - 48, r)
    else none
  | [] => none

/-- Parse one scalar JSON value. -/
def jsonValue : List Nat → Option (JValue × List Nat)
  | 34 :: r => (jsonStringAux r).map (fun p => (JValue.str p.1, p.2))
  | 116 :: 114 :: 117 :: 101 :: r => some (JValue.bool true, r)
  | 102 :: 97 :: 108 :: 115 :: 101 :: r => some (JValue.bool false, r)
  | 110 :: 117 :: 108 :: 108 :: r => some (JValue.null, r)
  | 45 :: r => (jsonDigits r).map (fun p => (JValue.num (-(p.1 : Int)), p.2))
  | b :: r =>
    if 48 ≤ b ∧ b ≤ 57 then
      (jsonDigits (b :: r)).map (fun p => (JValue.num (p.1 : Int), p.2))
    else none
  | [] => none

/-- Parse the members of a JSON object after its opening brace, consuming
the closing brace. -/
def jsonMembersAux : Nat → List Nat → Option (List (String × JValue) × List Nat)
  | 0, _ => none
  | fuel + 1, bs =>
    match jsonSkipWs bs with
    | 34 :: r =>
      match jsonStringAux r with
      | some (k, r1) =>
        match jsonSkipWs r1 with
        | 58 :: r2 =>
          match jsonValue (jsonSkipWs r2) with
          | some (v, r3) =>
            match jsonSkipWs r3 with
            | 44 :: r4 =>
              (jsonMembersAux fuel r4).map (fun p => ((k, v) :: p.1, p.2))
            | 125 :: r4 => some ([(k, v)], r4)
            | _ => none
          | none => none
        | _ => none
      | none => none
    | _ => none

/-- Models `json.loads(bs.decode('utf-8'))` on the modelled fragment: a
single flat object with nothing but whitespace after it. -/
def json_loads (bs : List Nat) : Option (List (String × JValue)) :=
  match jsonSkipWs bs with
  | 123 :: r =>
    match jsonSkipWs r with
    | 125 :: rest => if jsonSkipWs rest = [] then some [] else none
    | _ =>
      match jsonMembersAux (bs.length + 1) r with
      | some (kvs, rest) => if jsonSkipWs rest = [] then some kvs else none
      | none => none
  | _ => none

/-- Field access on a parsed JSON object with Python-dict semantics (last
duplicate wins, missing key gives `None`); models `client_data.get(k)`. -/
def jsonGet (kvs : List (String × JValue)) (k : String) : Option JValue :=
  (kvs.reverse.find? (fun p => p.1 = k)).map Prod.snd

/-- Wall-clock instants in microseconds, the resolution of
`datetime.utcnow()`. -/
abbrev Micros := Int

/-- One entry of the service's `challenge_cache` dict. -/
structure ChallengeEntry where
  challenge : String
  expires_at : Micros
deriving Repr, DecidableEq

/-- The `challenge_cache` dict of `WebAuthnService`, keyed by user id. -/
def Cache := Int → Option ChallengeEntry

/-- Models `store_challenge`: records the challenge with expiry
`now + expires_in` seconds, overwriting any prior entry for that user. -/
def store_challenge (c : Cache) (now : Micros) (user_id : Int) (challenge : String)
    (expires_in : Int := 300) : Cache :=
  fun u => if u = user_id then some ⟨challenge, now + expires_in * 1000000⟩ else c u

/-- Models `get_challenge`: a missing entry gives `None`; an entry whose
expiry lies strictly in the past is deleted and gives `None`; otherwise the
stored challenge string is returned and the cache is untouched. -/
def get_challenge (c : Cache) (now : Micros) (user_id : Int) : Option String × Cache :=
  match c user_id with
  | none => (none, c)
  | some e =>
    if now > e.expires_at then
      (none, fun u => if u = user_id then none else c u)
    else
      (some e.challenge, c)

/-- Models `clear_challenge`: removes any stored entry, idempotently. -/
def clear_challenge (c : Cache) (user_id : Int) : Cache :=
  fun u => if u = user_id then none else c u

/-- Python truthiness of an optional string: `None` and the empty string
are falsy. -/
def strFalsy : Option String → Bool
  | none => true
  | some s => s.isEmpty

end WebAuthn

namespace WebAuthn

/-- Cryptographic primitives the service calls out to.  `sha256` models
`hashlib.sha256(data).digest()`.  `ecdsaVerifyP256 x y sig msg` models
building `ec.EllipticCurvePublicNumbers(x, y, ec.SECP256R1()).public_key()`
and verifying the DER signature `sig` over `msg` with ECDSA/SHA-256:
`none` is an exception (point not on curve, malformed DER), `some b` the
verdict.  The service only compares these outputs, so all theorems hold for
every instantiation. -/
structure Crypto where
  sha256 : List Nat → List Nat
  ecdsaVerifyP256 : Nat → Nat → List Nat → List Nat → Option Bool

/-- Fields of a registration response the service reads
(`response['response'][...]`, base64url strings at the wire boundary). -/
structure RegResponse where
  attestationObject : String
  clientDataJSON : String
deriving Repr, DecidableEq

/-- Fields of an authentication response the service reads. -/
structure AuthResponse where
  authenticatorData : String
  clientDataJSON : String
  signature : String
deriving Repr, DecidableEq

/-- Success payload of `verify_registration_response`. -/
structure RegData where
  credential_id : String
  public_key : List Nat
  sign_count : Nat
  aaguid : String
deriving Repr, DecidableEq

/-- Success payload of `verify_authentication_response`. -/
structure AuthSuccess where
  sign_count : Nat
deriving Repr, DecidableEq

/-- The allowed-origin list both ceremonies check
(`expected_origins` in the source). -/
def expected_origins (rp_id : String) : List String :=
  ["https://" ++ rp_id, "http://" ++ rp_id ++ ":8000", "http://localhost:8000"]

/-- Models `client_data.get('origin') in expected_origins`. -/
def originAllowed (client_data : List (String × JValue)) (rp_id : String) : Bool :=
  match jsonGet client_data "origin" with
  | some (JValue.str o) => (expected_origins rp_id).contains o
  | _ => false

/-- Extract the `authData` entry of a decoded attestation object, as the
service's `attestation['authData']` does; any failure along the way is an
exception the service catches.  Requires a map with a byte-string value
under the text key `authData`. -/
def attAuthData (attestation_object : List Nat) : Option (List Nat) :=
  match cbor2_loads attestation_object with
  | some (Cbor.map kvs) => bytesVal (cborMapGet kvs (Cbor.text "authData"))
  | _ => none

/-- Models `cbor2.loads` followed by use of the result as a dict: gives the
key-value pairs when the bytes decode to a CBOR map, and `none` (an
exception the service catches) when decoding fails or the decoded value is
not a map. -/
def cborLoadsMap (bs : List Nat) : Option (List (Cbor × Cbor)) :=
  match cbor2_loads bs with
  | some (Cbor.map kvs) => some kvs
  | _ => none

/-- Pure part of `verify_registration_response` after the stored challenge
has been fetched: decodes, checks and extracts exactly as the source does,
in source order.  Explicit `return False` branches keep their source error
strings; exception paths caught by the source's `except` clause carry the
`Registration verification failed:` prefix with a fixed description in
place of the Python exception text. -/
def verify_registration_body (C : Crypto) (rp_id : String) (challenge : String)
    (resp : RegResponse) : Except String RegData :=
  match decode_base64url resp.attestationObject with
  | none => Except.error "Registration verification failed: invalid base64url"
  | some attestation_object =>
  match decode_base64url resp.clientDataJSON with
  | none => Except.error "Registration verification failed: invalid base64url"
  | some client_data_json =>
  match json_loads client_data_json with
  | none => Except.error "Registration verification failed: invalid client data JSON"
  | some client_data =>
  if jsonGet client_data "challenge" ≠ some (JValue.str challenge) then
    Except.error "Challenge mismatch"
  else if ¬ originAllowed client_data rp_id then
    Except.error "Invalid origin"
  else
  match attAuthData attestation_object with
  | none => Except.error "Registration verification failed: invalid attestation object"
  | some auth_data =>
  if auth_data.take 32 ≠ C.sha256 (strBytes rp_id) then
    Except.error "RP ID hash mismatch"
  else
  match auth_data.get? 32 with
  | none => Except.error "Registration verification failed: flags index out of range"
  | some flags =>
  if ¬ (flags &&& 1 ≠ 0 ∧ flags &&& 4 ≠ 0 ∧ flags &&& 64 ≠ 0) then
    Except.error "Invalid authenticator flags"
  else
  match beUint32 ((auth_data.drop 33).take 4) with
  | none => Except.error "Registration verification failed: truncated sign count"
  | some sign_count =>
  let aaguid := (auth_data.drop 37).take 16
  match beUint16 ((auth_data.drop 53).take 2) with
  | none => Except.error "Registration verification failed: truncated credential id length"
  | some credential_id_length =>
  let credential_id := (auth_data.drop 55).take credential_id_length
  let public_key_cbor := auth_data.drop (55 + credential_id_length)
  match cbor2_loads public_key_cbor with
  | none => Except.error "Registration verification failed: invalid public key CBOR"
  | some _ =>
  Except.ok
    { credential_id := encode_base64url_nopad credential_id
      public_key := public_key_cbor
      sign_count := sign_count
      aaguid := bytesToHex aaguid }

/-- Models `verify_registration_response`: fetch the stored challenge (a
missing, expired or empty challenge fails closed), run the checks of
`verify_registration_body`, and clear the challenge exactly when
verification succeeds.  Returns the updated challenge cache with the
result. -/
def verify_registration_response (C : Crypto) (c : Cache) (now : Micros) (user_id : Int)
    (resp : RegResponse) (rp_id : String) : Cache × Except String RegData :=
  match get_challenge c now user_id with
  | (chOpt, c') =>
    if strFalsy chOpt then
      (c', Except.error "No challenge found or challenge expired")
    else
      match verify_registration_body C rp_id (chOpt.getD "") resp with
      | Except.error e => (c', Except.error e)
      | Except.ok d => (clear_challenge c' user_id, Except.ok d)

/-- Models `verify_authentication_response`: decode the response fields,
check challenge, origin, rp-id hash, presence/verification flags and
sign-count monotonicity, then decode the stored COSE key and verify the
ECDSA signature, in source order.  Explicit `return False` branches keep
their source error strings; caught-exception paths carry the
`Authentication verification failed:` prefix. -/
def verify_authentication_response (C : Crypto) (credential_id : String)
    (public_key : List Nat) (stored_sign_count : Nat) (resp : AuthResponse)
    (challenge : String) (rp_id : String) : Except String AuthSuccess :=
  match decode_base64url resp.authenticatorData with
  | none => Except.error "Authentication verification failed: invalid base64url"
  | some authenticator_data =>
  match decode_base64url resp.clientDataJSON with
  | none => Except.error "Authentication verification failed: invalid base64url"
  | some client_data_json =>
  match decode_base64url resp.signature with
  | none => Except.error "Authentication verification failed: invalid base64url"
  | some signature =>
  match json_loads client_data_json with
  | none => Except.error "Authentication verification failed: invalid client data JSON"
  | some client_data =>
  if jsonGet client_data "challenge" ≠ some (JValue.str challenge) then
    Except.error "Challenge mismatch"
  else if ¬ originAllowed client_data rp_id then
    Except.error "Invalid origin"
  else
  if authenticator_data.take 32 ≠ C.sha256 (strBytes rp_id) then
    Except.error "RP ID hash mismatch"
  else
  match authenticator_data.get? 32 with
  | none => Except.error "Authentication verification failed: flags index out of range"
  | some flags =>
  if ¬ (flags &&& 1 ≠ 0 ∧ flags &&& 4 ≠ 0) then
    Except.error "User not present or not verified"
  else
  match beUint32 ((authenticator_data.drop 33).take 4) with
  | none => Except.error "Authentication verification failed: truncated sign count"
  | some current_sign_count =>
  if current_sign_count ≤ stored_sign_count ∧ stored_sign_count ≠ 0 then
    Except.error "Sign count verification failed (possible cloned authenticator)"
  else
  let client_data_hash := C.sha256 client_data_json
  let signed_data := authenticator_data ++ client_data_hash
  match cborLoadsMap public_key with
  | none => Except.error "Authentication verification failed: invalid public key CBOR"
  | some public_key_data =>
  if intVal (cborMapGet public_key_data (Cbor.int 1)) = some 2 then
    if intVal (cborMapGet public_key_data (Cbor.int (-1))) = some 1 then
      match bytesVal (cborMapGet public_key_data (Cbor.int (-2))),
            bytesVal (cborMapGet public_key_data (Cbor.int (-3))) with
      | some x, some y =>
        match C.ecdsaVerifyP256 (intFromBytesBE x) (intFromBytesBE y) signature signed_data with
        | none => Except.error "Authentication verification failed: signature decode error"
        | some signature_valid =>
          if signature_valid then Except.ok { sign_count := current_sign_count }
          else Except.error "Signature verification failed"
      | _, _ => Except.error "Authentication verification failed: invalid key coordinates"
    else
      Except.error "Unsupported curve"
  else
    Except.error "Unsupported key type"

/-- Models the challenge-selection step of the `/authenticate/complete`
handler (`app/api/passkey.py`, lines 200-210): fetch the stored challenge
for the credential's owner; if it is missing (or empty), fall back to a
`challenge` value supplied inside the client's own response, and reject
only when that is also missing. -/
def completeAuthSelectChallenge (c : Cache) (now : Micros) (user_id : Int)
    (respChallenge : Option String) : Except String String :=
  match get_challenge c now user_id with
  | (chOpt, _) =>
    if strFalsy chOpt then
      if strFalsy respChallenge then
        Except.error "No challenge found or challenge expired"
      else
        Except.ok (respChallenge.getD "")
    else
      Except.ok (chOpt.getD "")

/-- One row of the `passkey_credentials` table, with the columns the
repository operations touch. -/
structure StoredCredential where
  credential_id : String
  user_id : Int
  public_key : List Nat
  sign_count : Nat
  is_active : Bool
deriving Repr, DecidableEq

/-- The credential table as a list of rows. -/
abbrev CredStore := List StoredCredential

/-- Models `PasskeyCredentialRepository.deactivate`: an UPDATE setting
`is_active = false` on rows matching both the credential id and the user
id; returns the new table and whether any row matched (`rowcount > 0`). -/
def deactivate (db : CredStore) (credential_id : String) (user_id : Int) :
    CredStore × Bool :=
  (db.map (fun r =>
      if r.credential_id = credential_id ∧ r.user_id = user_id then
        { r with is_active := false }
      else r),
   db.any (fun r => decide (r.credential_id = credential_id ∧ r.user_id = user_id)))

/-- Models `PasskeyCredentialRepository.delete`: a DELETE on rows matching
both the credential id and the user id; returns the new table and whether
any row matched. -/
def deleteCredential (db : CredStore) (credential_id : String) (user_id : Int) :
    CredStore × Bool :=
  (db.filter (fun r => ¬ (r.credential_id = credential_id ∧ r.user_id = user_id)),
   db.any (fun r => decide (r.credential_id = credential_id ∧ r.user_id = user_id)))

/-- Whether an `Except` result is a failure. -/
def isErr {α : Type} : Except String α → Bool
  | Except.error _ => true
  | Except.ok _ => false

end WebAuthn

namespace WebAuthn

/-- Iterated `store_challenge` for one owner: each list element carries the
store time, the challenge value and the ttl of one call. -/
def store_seq (c : Cache) (user_id : Int) (ops : List (Micros × String × Int)) : Cache :=
  ops.foldl (fun acc op => store_challenge acc op.1 user_id op.2.1 op.2.2) c

/-- C2: a completion of the authentication ceremony with no stored
challenge for the credential's owner does NOT reject: the handler
substitutes the challenge value supplied inside the client's own response
(`app/api/passkey.py` lines 200-210) and proceeds, contradicting the
fail-closed requirement.  The registration ceremony, by contrast, does fail
closed (see `c10_reg_failure_preserves_challenge` area lemmas).  Concrete
failing input: empty challenge cache, owner 7, client response carrying
`challenge = "attacker-chosen"`. -/
theorem c2_auth_uses_client_supplied_challenge :
    completeAuthSelectChallenge (fun _ => none) 0 7 (some "attacker-chosen") =
      Except.ok "attacker-chosen" ∧
    (get_challenge (fun _ => none) 0 7).1 = none :=
  ⟨rfl, rfl⟩

/-- C6: with every row holding `cid` owned by user `ua` (the table has a
unique index on `credential_id`, so ownership hypotheses cover all rows),
calling deactivate or delete with `cid` but a different user `ub` returns
false and leaves the table unchanged; and when a row matching the
`(credential_id, user_id)` pair exists, both operations report success. -/
theorem c6_cross_user_isolation (db : CredStore) (cid : String) (ua ub : Int)
    (hown : ∀ r ∈ db, r.credential_id = cid → r.user_id = ua) (hne : ub ≠ ua) :
    (deactivate db cid ub).2 = false ∧ (deactivate db cid ub).1 = db ∧
    (deleteCredential db cid ub).2 = false ∧ (deleteCredential db cid ub).1 = db ∧
    ((∃ r ∈ db, r.credential_id = cid ∧ r.user_id = ua) →
      (deactivate db cid ua).2 = true ∧ (deleteCredential db cid ua).2 = true) := by
  have hnomatch : ∀ r ∈ db, ¬ (r.credential_id = cid ∧ r.user_id = ub) := by
    intro r hr ⟨h1, h2⟩
    exact hne (h2 ▸ hown r hr h1)
  refine ⟨?_, ?_, ?_, ?_, ?_⟩
  · simp only [deactivate, List.any_eq_false, decide_eq_true_eq]
    exact hnomatch
  · simp only [deactivate]
    calc db.map (fun r => if r.credential_id = cid ∧ r.user_id = ub then
          { r with is_active := false } else r)
        = db.map id := List.map_congr_left (fun r hr => if_neg (hnomatch r hr))
      _ = db := List.map_id db
  · simp only [deleteCredential, List.any_eq_false, decide_eq_true_eq]
    exact hnomatch
  · simp only [deleteCredential]
    rw [List.filter_eq_self]
    intro r hr
    have h := hnomatch r hr
    simp only [decide_eq_true_eq]
    tauto
  · rintro ⟨r, hr, h1, h2⟩
    constructor
    · simp only [deactivate, List.any_eq_true, decide_eq_true_eq]
      exact ⟨r, hr, h1, h2⟩
    · simp only [deleteCredential, List.any_eq_true, decide_eq_true_eq]
      exact ⟨r, hr, h1, h2⟩

/-- Witness for C6 at a concrete one-row table. -/
theorem c6_cross_user_isolation_witness :
    (deactivate [⟨"cred1", 1, [], 0, true⟩] "cred1" 2).2 = false ∧
    (deactivate [⟨"cred1", 1, [], 0, true⟩] "cred1" 2).1 = [⟨"cred1", 1, [], 0, true⟩] ∧
    (deleteCredential [⟨"cred1", 1, [], 0, true⟩] "cred1" 2).2 = false ∧
    (deleteCredential [⟨"cred1", 1, [], 0, true⟩] "cred1" 2).1 = [⟨"cred1", 1, [], 0, true⟩] ∧
    ((∃ r ∈ [(⟨"cred1", 1, [], 0, true⟩ : StoredCredential)],
        r.credential_id = "cred1" ∧ r.user_id = 1) →
      (deactivate [⟨"cred1", 1, [], 0, true⟩] "cred1" 1).2 = true ∧
      (deleteCredential [⟨"cred1", 1, [], 0, true⟩] "cred1" 1).2 = true) :=
  c6_cross_user_isolation [⟨"cred1", 1, [], 0, true⟩] "cred1" 1 2
    (by intro r hr h; simp at hr; simp [hr]) (by decide)

/-- C7 as stated is false on the boundary: a challenge stored with
`ttl_seconds = 0` and read back at the very same clock instant is still
returned, because expiry uses the strict comparison `now > expires_at`.
Store at time 0 with ttl 0, get at time 0: the challenge comes back. -/
theorem c7_counterexample :
    (get_challenge (store_challenge (fun _ => none) 0 1 "c" 0) 0 1).1 = some "c" := by
  simp [get_challenge, store_challenge]

/-- C7 amended: a challenge stored with `ttl_seconds < 0` is immediately
unavailable via `get_challenge` — already at the store instant itself and
at every instant after (`now ≤ now'`, strictness demanded only when the
ttl is exactly 0); a challenge stored with `ttl_seconds = 0` is
unavailable at every strictly later clock instant, the read at the exact
store instant being the one exception established by the counterexample. -/
theorem c7_nonpositive_ttl_unavailable (c : Cache) (now : Micros) (user_id : Int)
    (ch : String) (ttl : Int) (now' : Micros) (httl : ttl ≤ 0) (hnow : now ≤ now')
    (hstrict : ttl = 0 → now < now') :
    (get_challenge (store_challenge c now user_id ch ttl) now' user_id).1 = none := by
  have hexp : now' > now + ttl * 1000000 := by
    rcases lt_or_eq_of_le httl with hneg | h0
    · have h1 : ttl ≤ -1 := by linarith
      have h7 : ttl * 1000000 ≤ -1 * 1000000 := mul_le_mul_of_nonneg_right h1 (by norm_num)
      linarith
    · have hlt := hstrict h0
      rw [h0]
      simp only [zero_mul, add_zero]
      exact hlt
  simp [get_challenge, store_challenge, hexp]

/-- Witness for the amended C7: ttl −1 with the read at the very same
instant as the store already returns nothing. -/
theorem c7_nonpositive_ttl_unavailable_witness :
    (-1 : Int) ≤ 0 ∧ (0 : Micros) ≤ 0 ∧
    (get_challenge (store_challenge (fun _ => none) 0 1 "c" (-1)) 0 1).1 = none :=
  ⟨by norm_num, le_refl 0,
    c7_nonpositive_ttl_unavailable (fun _ => none) 0 1 "c" (-1) 0 (by norm_num) (le_refl 0)
      (fun h => absurd h (by norm_num))⟩

/-- C9: after any sequence of `store_challenge` calls for an owner, a
`get_challenge` before the last challenge's expiry returns exactly the most
recently stored value — each store overwrites the previous entry, and the
cache (a map keyed by owner) holds at most one entry per owner by
construction. -/
theorem c9_latest_store_wins (c : Cache) (user_id : Int)
    (ops : List (Micros × String × Int)) (t : Micros) (ch : String) (ttl : Int)
    (now : Micros) (hlive : ¬ now > t + ttl * 1000000) :
    (get_challenge (store_seq c user_id (ops ++ [(t, ch, ttl)])) now user_id).1 = some ch := by
  rw [store_seq, List.foldl_append]
  simp [List.foldl, get_challenge, store_challenge, hlive]

/-- Witness for C9: two stores for the same owner, the second wins. -/
theorem c9_latest_store_wins_witness :
    ¬ (5 : Micros) > 0 + 300 * 1000000 ∧
    (get_challenge (store_seq (fun _ => none) 1 ([(0, "old", 300)] ++ [(0, "new", 300)])) 5 1).1 =
      some "new" :=
  ⟨by norm_num,
    c9_latest_store_wins (fun _ => none) 1 [(0, "old", 300)] 0 "new" 300 5 (by norm_num)⟩

end WebAuthn

namespace WebAuthn

theorem beUint32_length {l : List Nat} {n : Nat} (h : beUint32 l = some n) :
    l.length = 4 := by
  unfold beUint32 at h
  split at h
  · simp
  · exact Option.noConfusion h

theorem beUint16_length {l : List Nat} {n : Nat} (h : beUint16 l = some n) :
    l.length = 2 := by
  unfold beUint16 at h
  split at h
  · simp
  · exact Option.noConfusion h

theorem length_ge_37_of_signcount {ad : List Nat} {n : Nat}
    (h : beUint32 ((ad.drop 33).take 4) = some n) : 37 ≤ ad.length := by
  have := beUint32_length h
  simp [List.length_take, List.length_drop] at this
  omega

/-- Decoding the empty byte string fails, as `cbor2.loads(b'')` raises. -/
theorem cbor2_loads_nil : cbor2_loads [] = none := rfl

/-- Inversion of a successful registration verification: success pins down
every check the source performs and every field of the returned credential
data. -/
theorem reg_body_ok_inv {C : Crypto} {rp ch : String} {resp : RegResponse} {d : RegData}
    (h : verify_registration_body C rp ch resp = Except.ok d) :
    ∃ attB cdjB cd ad,
      decode_base64url resp.attestationObject = some attB ∧
      decode_base64url resp.clientDataJSON = some cdjB ∧
      json_loads cdjB = some cd ∧
      jsonGet cd "challenge" = some (JValue.str ch) ∧
      originAllowed cd rp = true ∧
      attAuthData attB = some ad ∧
      ad.take 32 = C.sha256 (strBytes rp) ∧
      (∃ f, ad.get? 32 = some f ∧ f &&& 1 ≠ 0 ∧ f &&& 4 ≠ 0 ∧ f &&& 64 ≠ 0) ∧
      (∃ sc, beUint32 ((ad.drop 33).take 4) = some sc ∧ d.sign_count = sc) ∧
      (∃ L, beUint16 ((ad.drop 53).take 2) = some L ∧
        (∃ pk, cbor2_loads (ad.drop (55 + L)) = some pk) ∧
        d.credential_id = encode_base64url_nopad ((ad.drop 55).take L) ∧
        d.public_key = ad.drop (55 + L)) ∧
      d.aaguid = bytesToHex ((ad.drop 37).take 16) ∧
      37 ≤ ad.length := by
  rw [verify_registration_body] at h
  cases hatt : decode_base64url resp.attestationObject with
  | none => simp only [hatt] at h; exact Except.noConfusion h
  | some attB =>
  simp only [hatt] at h
  cases hcdj : decode_base64url resp.clientDataJSON with
  | none => simp only [hcdj] at h; exact Except.noConfusion h
  | some cdjB =>
  simp only [hcdj] at h
  cases hjson : json_loads cdjB with
  | none => simp only [hjson] at h; exact Except.noConfusion h
  | some cd =>
  simp only [hjson] at h
  by_cases hch : jsonGet cd "challenge" ≠ some (JValue.str ch)
  · rw [if_pos hch] at h; exact Except.noConfusion h
  rw [if_neg hch] at h
  rw [not_not] at hch
  by_cases horig : ¬ originAllowed cd rp
  · rw [if_pos horig] at h; exact Except.noConfusion h
  rw [if_neg horig] at h
  rw [not_not] at horig
  cases had : attAuthData attB with
  | none => simp only [had] at h; exact Except.noConfusion h
  | some ad =>
  simp only [had] at h
  by_cases hrp : ad.take 32 ≠ C.sha256 (strBytes rp)
  · rw [if_pos hrp] at h; exact Except.noConfusion h
  rw [if_neg hrp] at h
  rw [not_not] at hrp
  cases hfl : ad.get? 32 with
  | none => simp only [hfl] at h; exact Except.noConfusion h
  | some flags =>
  simp only [hfl] at h
  by_cases hbits : ¬ (flags &&& 1 ≠ 0 ∧ flags &&& 4 ≠ 0 ∧ flags &&& 64 ≠ 0)
  · rw [if_pos hbits] at h; exact Except.noConfusion h
  rw [if_neg hbits] at h
  rw [not_not] at hbits
  cases hsc : beUint32 ((ad.drop 33).take 4) with
  | none => simp only [hsc] at h; exact Except.noConfusion h
  | some sc =>
  simp only [hsc] at h
  cases hL : beUint16 ((ad.drop 53).take 2) with
  | none => simp only [hL] at h; exact Except.noConfusion h
  | some L =>
  simp only [hL] at h
  cases hpk : cbor2_loads (ad.drop (55 + L)) with
  | none => simp only [hpk] at h; exact Except.noConfusion h
  | some pk =>
  simp only [hpk] at h
  cases h
  exact ⟨attB, cdjB, cd, ad, rfl, rfl, hjson, hch, horig, had, hrp,
    ⟨flags, hfl, hbits⟩, ⟨sc, hsc, rfl⟩, ⟨L, hL, ⟨pk, hpk⟩, rfl, rfl⟩, rfl,
    length_ge_37_of_signcount hsc⟩

end WebAuthn

namespace WebAuthn

/-- Inversion of a successful authentication verification: success pins
down every check the source performs, including strict sign-count growth
whenever the stored counter is non-zero. -/
theorem auth_ok_inv {C : Crypto} {cid : String} {pk : List Nat} {stored : Nat}
    {resp : AuthResponse} {ch rp : String} {d : AuthSuccess}
    (h : verify_authentication_response C cid pk stored resp ch rp = Except.ok d) :
    ∃ ad cdjB sg cd,
      decode_base64url resp.authenticatorData = some ad ∧
      decode_base64url resp.clientDataJSON = some cdjB ∧
      decode_base64url resp.signature = some sg ∧
      json_loads cdjB = some cd ∧
      jsonGet cd "challenge" = some (JValue.str ch) ∧
      originAllowed cd rp = true ∧
      ad.take 32 = C.sha256 (strBytes rp) ∧
      (∃ f, ad.get? 32 = some f ∧ f &&& 1 ≠ 0 ∧ f &&& 4 ≠ 0) ∧
      (∃ n, beUint32 ((ad.drop 33).take 4) = some n ∧ d.sign_count = n ∧
        ¬ (n ≤ stored ∧ stored ≠ 0)) ∧
      (∃ m, cborLoadsMap pk = some m ∧
        intVal (cborMapGet m (Cbor.int 1)) = some 2 ∧
        intVal (cborMapGet m (Cbor.int (-1))) = some 1 ∧
        (∃ x y, bytesVal (cborMapGet m (Cbor.int (-2))) = some x ∧
          bytesVal (cborMapGet m (Cbor.int (-3))) = some y ∧
          C.ecdsaVerifyP256 (intFromBytesBE x) (intFromBytesBE y) sg
            (ad ++ C.sha256 cdjB) = some true)) ∧
      37 ≤ ad.length := by
  rw [verify_authentication_response] at h
  cases had : decode_base64url resp.authenticatorData with
  | none => simp only [had] at h; exact Except.noConfusion h
  | some ad =>
  simp only [had] at h
  cases hcdj : decode_base64url resp.clientDataJSON with
  | none => simp only [hcdj] at h; exact Except.noConfusion h
  | some cdjB =>
  simp only [hcdj] at h
  cases hsg : decode_base64url resp.signature with
  | none => simp only [hsg] at h; exact Except.noConfusion h
  | some sg =>
  simp only [hsg] at h
  cases hjson : json_loads cdjB with
  | none => simp only [hjson] at h; exact Except.noConfusion h
  | some cd =>
  simp only [hjson] at h
  by_cases hch : jsonGet cd "challenge" ≠ some (JValue.str ch)
  · rw [if_pos hch] at h; exact Except.noConfusion h
  rw [if_neg hch] at h
  rw [not_not] at hch
  by_cases horig : ¬ originAllowed cd rp
  · rw [if_pos horig] at h; exact Except.noConfusion h
  rw [if_neg horig] at h
  rw [not_not] at horig
  by_cases hrp : ad.take 32 ≠ C.sha256 (strBytes rp)
  · rw [if_pos hrp] at h; exact Except.noConfusion h
  rw [if_neg hrp] at h
  rw [not_not] at hrp
  cases hfl : ad.get? 32 with
  | none => simp only [hfl] at h; exact Except.noConfusion h
  | some flags =>
  simp only [hfl] at h
  by_cases hbits : ¬ (flags &&& 1 ≠ 0 ∧ flags &&& 4 ≠ 0)
  · rw [if_pos hbits] at h; exact Except.noConfusion h
  rw [if_neg hbits] at h
  rw [not_not] at hbits
  cases hn : beUint32 ((ad.drop 33).take 4) with
  | none => simp only [hn] at h; exact Except.noConfusion h
  | some n =>
  simp only [hn] at h
  by_cases hmono : n ≤ stored ∧ stored ≠ 0
  · rw [if_pos hmono] at h; exact Except.noConfusion h
  rw [if_neg hmono] at h
  cases hpk : cborLoadsMap pk with
  | none => simp only [hpk] at h; exact Except.noConfusion h
  | some m =>
  simp only [hpk] at h
  by_cases hkty : intVal (cborMapGet m (Cbor.int 1)) = some 2
  · rw [if_pos hkty] at h
    by_cases hcrv : intVal (cborMapGet m (Cbor.int (-1))) = some 1
    · rw [if_pos hcrv] at h
      cases hx : bytesVal (cborMapGet m (Cbor.int (-2))) with
      | none => simp only [hx] at h; exact Except.noConfusion h
      | some x =>
      simp only [hx] at h
      cases hy : bytesVal (cborMapGet m (Cbor.int (-3))) with
      | none => simp only [hy] at h; exact Except.noConfusion h
      | some y =>
      simp only [hy] at h
      cases hec : C.ecdsaVerifyP256 (intFromBytesBE x) (intFromBytesBE y) sg
          (ad ++ C.sha256 cdjB) with
      | none => simp only [hec] at h; exact Except.noConfusion h
      | some b =>
      simp only [hec] at h
      cases b with
      | false => simp only [if_neg (by simp : ¬ false = true)] at h; exact Except.noConfusion h
      | true =>
      simp only [if_pos rfl] at h
      cases h
      exact ⟨ad, cdjB, sg, cd, rfl, rfl, rfl, hjson, hch, horig, hrp,
        ⟨flags, hfl, hbits⟩, ⟨n, hn, rfl, hmono⟩,
        ⟨m, rfl, hkty, hcrv, ⟨x, y, hx, hy, hec⟩⟩,
        length_ge_37_of_signcount hn⟩
    · rw [if_neg hcrv] at h; exact Except.noConfusion h
  · rw [if_neg hkty] at h; exact Except.noConfusion h

end WebAuthn

namespace WebAuthn

/-- Inversion of the possible-cloned-authenticator failure: that error
string is produced only by the sign-count monotonicity branch, so it
implies a parsed sign count at most the stored one with the stored one
non-zero. -/
theorem auth_cloned_error_inv {C : Crypto} {cid : String} {pk : List Nat} {stored : Nat}
    {resp : AuthResponse} {ch rp : String}
    (h : verify_authentication_response C cid pk stored resp ch rp =
      Except.error "Sign count verification failed (possible cloned authenticator)") :
    ∃ ad n, decode_base64url resp.authenticatorData = some ad ∧
      beUint32 ((ad.drop 33).take 4) = some n ∧ n ≤ stored ∧ stored ≠ 0 := by
  rw [verify_authentication_response] at h
  cases had : decode_base64url resp.authenticatorData with
  | none => simp only [had] at h; injection h with h2; exact absurd h2 (by decide)
  | some ad =>
  simp only [had] at h
  cases hcdj : decode_base64url resp.clientDataJSON with
  | none => simp only [hcdj] at h; injection h with h2; exact absurd h2 (by decide)
  | some cdjB =>
  simp only [hcdj] at h
  cases hsg : decode_base64url resp.signature with
  | none => simp only [hsg] at h; injection h with h2; exact absurd h2 (by decide)
  | some sg =>
  simp only [hsg] at h
  cases hjson : json_loads cdjB with
  | none => simp only [hjson] at h; injection h with h2; exact absurd h2 (by decide)
  | some cd =>
  simp only [hjson] at h
  by_cases hch : jsonGet cd "challenge" ≠ some (JValue.str ch)
  · rw [if_pos hch] at h; injection h with h2; exact absurd h2 (by decide)
  rw [if_neg hch] at h
  by_cases horig : ¬ originAllowed cd rp
  · rw [if_pos horig] at h; injection h with h2; exact absurd h2 (by decide)
  rw [if_neg horig] at h
  by_cases hrp : ad.take 32 ≠ C.sha256 (strBytes rp)
  · rw [if_pos hrp] at h; injection h with h2; exact absurd h2 (by decide)
  rw [if_neg hrp] at h
  cases hfl : ad.get? 32 with
  | none => simp only [hfl] at h; injection h with h2; exact absurd h2 (by decide)
  | some flags =>
  simp only [hfl] at h
  by_cases hbits : ¬ (flags &&& 1 ≠ 0 ∧ flags &&& 4 ≠ 0)
  · rw [if_pos hbits] at h; injection h with h2; exact absurd h2 (by decide)
  rw [if_neg hbits] at h
  cases hn : beUint32 ((ad.drop 33).take 4) with
  | none => simp only [hn] at h; injection h with h2; exact absurd h2 (by decide)
  | some n =>
  simp only [hn] at h
  by_cases hmono : n ≤ stored ∧ stored ≠ 0
  · exact ⟨ad, n, rfl, hn, hmono.1, hmono.2⟩
  rw [if_neg hmono] at h
  exfalso
  cases hpk : cborLoadsMap pk with
  | none => simp only [hpk] at h; injection h with h2; exact absurd h2 (by decide)
  | some m =>
  simp only [hpk] at h
  by_cases hkty : intVal (cborMapGet m (Cbor.int 1)) = some 2
  · rw [if_pos hkty] at h
    by_cases hcrv : intVal (cborMapGet m (Cbor.int (-1))) = some 1
    · rw [if_pos hcrv] at h
      cases hx : bytesVal (cborMapGet m (Cbor.int (-2))) with
      | none => simp only [hx] at h; injection h with h2; exact absurd h2 (by decide)
      | some x =>
      simp only [hx] at h
      cases hy : bytesVal (cborMapGet m (Cbor.int (-3))) with
      | none => simp only [hy] at h; injection h with h2; exact absurd h2 (by decide)
      | some y =>
      simp only [hy] at h
      cases hec : C.ecdsaVerifyP256 (intFromBytesBE x) (intFromBytesBE y) sg
          (ad ++ C.sha256 cdjB) with
      | none => simp only [hec] at h; injection h with h2; exact absurd h2 (by decide)
      | some b =>
      simp only [hec] at h
      cases b with
      | false =>
        simp only [if_neg (by simp : ¬ false = true)] at h
        injection h with h2; exact absurd h2 (by decide)
      | true => simp only [if_pos rfl] at h; exact Except.noConfusion h
    · rw [if_neg hcrv] at h; injection h with h2; exact absurd h2 (by decide)
  · rw [if_neg hkty] at h; injection h with h2; exact absurd h2 (by decide)

end WebAuthn

namespace WebAuthn

/-- Crypto instantiation for concrete witnesses: a constant 32-byte digest
and an always-accepting signature check (every theorem above holds for all
`Crypto`, so any instantiation may witness them). -/
def testCrypto : Crypto where
  sha256 := fun _ => List.replicate 32 0
  ecdsaVerifyP256 := fun _ _ _ _ => some true

/-- Concrete clientDataJSON bytes carrying challenge `abc` and an allowed
origin. -/
def testCDJ : List Nat :=
  strBytes "\x7b\"challenge\":\"abc\",\"origin\":\"http://localhost:8000\"\x7d"

/-- Attested authenticator data without its trailing COSE key: 32-byte
rp-id hash (matching `testCrypto.sha256`), flags 0x45, sign count 5, a
16-byte aaguid, credential id length 1 and credential id 0x07. -/
def regAuthDataPrefix : List Nat :=
  List.replicate 32 0 ++ [69, 0, 0, 0, 5] ++ List.replicate 16 0 ++ [0, 1, 7]

/-- Well-formed registration authenticator data with an EC2 COSE key map. -/
def testRegAuthData : List Nat := regAuthDataPrefix ++ [161, 1, 2]

/-- Registration authenticator data whose COSE key has kty = 3 (not EC2). -/
def badKeyRegAuthData : List Nat := regAuthDataPrefix ++ [161, 1, 3]

/-- CBOR attestation object wrapping the given authData bytes. -/
def mkAttObj (ad : List Nat) : List Nat :=
  161 :: 104 :: strBytes "authData" ++ [88, ad.length] ++ ad

/-- Concrete well-formed registration response. -/
def testRegResponse : RegResponse :=
  { attestationObject := encode_base64url_nopad (mkAttObj testRegAuthData)
    clientDataJSON := encode_base64url_nopad testCDJ }

/-- Concrete registration response whose COSE key is not EC2. -/
def badKeyRegResponse : RegResponse :=
  { attestationObject := encode_base64url_nopad (mkAttObj badKeyRegAuthData)
    clientDataJSON := encode_base64url_nopad testCDJ }

/-- Challenge cache holding an unexpired challenge `abc` for user 1. -/
def testCache : Cache := fun u => if u = 1 then some ⟨"abc", 1000000⟩ else none

/-- Plain (non-attested) authenticator data: flags 0x05, sign count 9. -/
def testAuthAD : List Nat := List.replicate 32 0 ++ [5, 0, 0, 0, 9]

/-- COSE EC2/P-256 key map with one-byte x and y coordinates. -/
def testAuthPK : List Nat := [164, 1, 2, 32, 1, 33, 65, 7, 34, 65, 9]

/-- COSE key map with kty = 3 (not EC2). -/
def badAuthPK : List Nat := [161, 1, 3]

/-- Concrete well-formed authentication response. -/
def testAuthResponse : AuthResponse :=
  { authenticatorData := encode_base64url_nopad testAuthAD
    clientDataJSON := encode_base64url_nopad testCDJ
    signature := encode_base64url_nopad [1, 2, 3] }

theorem get_challenge_live {c : Cache} {now : Micros} {uid : Int} {e : ChallengeEntry}
    (hc : c uid = some e) (hl : ¬ now > e.expires_at) :
    get_challenge c now uid = (some e.challenge, c) := by
  unfold get_challenge
  simp only [hc]
  rw [if_neg hl]

theorem strFalsy_some_false {s : String} (h : s ≠ "") : strFalsy (some s) = false := by
  rw [strFalsy, Bool.eq_false_iff]
  intro hk
  exact h ((String.isEmpty_iff s).mp hk)

/-- C10: with a live (present, unexpired, non-empty) stored challenge, a
registration verification that fails — for any reason — leaves the
challenge cache untouched and the challenge still retrievable; the
challenge entry is removed exactly when verification succeeds. -/
theorem c10_reg_failure_preserves_challenge
    (C : Crypto) (cache : Cache) (now : Micros) (uid : Int) (resp : RegResponse)
    (rp : String) (e : ChallengeEntry)
    (hc : cache uid = some e) (hl : ¬ now > e.expires_at) (hne : e.challenge ≠ "") :
    (∀ msg, (verify_registration_response C cache now uid resp rp).2 = Except.error msg →
      (verify_registration_response C cache now uid resp rp).1 = cache ∧
      (get_challenge (verify_registration_response C cache now uid resp rp).1 now uid).1 =
        some e.challenge) ∧
    (∀ d, (verify_registration_response C cache now uid resp rp).2 = Except.ok d →
      (verify_registration_response C cache now uid resp rp).1 uid = none) := by
  rw [verify_registration_response, get_challenge_live hc hl]
  simp only [strFalsy_some_false hne, Bool.false_eq_true, if_false, Option.getD_some]
  cases hbody : verify_registration_body C rp e.challenge resp with
  | error msg =>
    refine ⟨fun msg2 _ => ⟨rfl, ?_⟩, fun d hd => Except.noConfusion hd⟩
    rw [get_challenge_live hc hl]
  | ok d =>
    refine ⟨fun msg2 hm => Except.noConfusion hm, fun d2 _ => ?_⟩
    simp [clear_challenge]

/-- Witness for C10 at a concrete failing response (empty strings decode
but the client data fails to parse as JSON). -/
theorem c10_reg_failure_preserves_challenge_witness :
    (testCache 1 = some ⟨"abc", 1000000⟩) ∧
    ((verify_registration_response testCrypto testCache 0 1 ⟨"", ""⟩ "localhost").1 = testCache ∧
      (get_challenge (verify_registration_response testCrypto testCache 0 1 ⟨"", ""⟩
        "localhost").1 0 1).1 = some "abc") :=
  ⟨rfl,
    (c10_reg_failure_preserves_challenge testCrypto testCache 0 1 ⟨"", ""⟩ "localhost"
      ⟨"abc", 1000000⟩ rfl (by norm_num) (by decide)).1
      "Registration verification failed: invalid client data JSON" rfl⟩

end WebAuthn

namespace WebAuthn

/-- C1: with an authentication response that reaches the sign-count check
(decodes, challenge, origin, rp-id hash and flags all in order, parsed
sign count `n` at offset 33), the service fails with the
possible-cloned-authenticator error exactly when the stored count is
non-zero and `n` does not exceed it; a zero stored count, or a strictly
larger `n`, never produces that error; and any overall success carries `n`
as the returned sign count. -/
theorem c1_sign_count_monotonicity
    (C : Crypto) (cid : String) (pk : List Nat) (stored : Nat) (resp : AuthResponse)
    (ch rp : String) (ad cdjB sg : List Nat) (cd : List (String × JValue)) (f n : Nat)
    (hA : decode_base64url resp.authenticatorData = some ad)
    (hcd : decode_base64url resp.clientDataJSON = some cdjB)
    (hsg : decode_base64url resp.signature = some sg)
    (hj : json_loads cdjB = some cd)
    (hch : jsonGet cd "challenge" = some (JValue.str ch))
    (ho : originAllowed cd rp = true)
    (hrp : ad.take 32 = C.sha256 (strBytes rp))
    (hf : ad.get? 32 = some f) (hf1 : f &&& 1 ≠ 0) (hf4 : f &&& 4 ≠ 0)
    (hn : beUint32 ((ad.drop 33).take 4) = some n) :
    (stored ≠ 0 ∧ n ≤ stored →
      verify_authentication_response C cid pk stored resp ch rp =
        Except.error "Sign count verification failed (possible cloned authenticator)") ∧
    (stored = 0 ∨ stored < n →
      verify_authentication_response C cid pk stored resp ch rp ≠
        Except.error "Sign count verification failed (possible cloned authenticator)") ∧
    (∀ d, verify_authentication_response C cid pk stored resp ch rp = Except.ok d →
      d.sign_count = n) := by
  refine ⟨?_, ?_, ?_⟩
  · rintro ⟨hs0, hle⟩
    rw [verify_authentication_response]
    simp only [hA, hcd, hsg, hj]
    rw [if_neg (fun hk => hk hch), if_neg (fun hk => hk ho), if_neg (fun hk => hk hrp)]
    simp only [hf]
    rw [if_neg (fun hk => hk ⟨hf1, hf4⟩)]
    simp only [hn]
    rw [if_pos ⟨hle, hs0⟩]
  · intro hpass hcontra
    obtain ⟨ad2, n2, hA2, hn2, hle2, hs02⟩ := auth_cloned_error_inv hcontra
    rw [hA] at hA2
    cases hA2
    rw [hn] at hn2
    cases hn2
    rcases hpass with h0 | hlt
    · exact hs02 h0
    · omega
  · intro d hok
    obtain ⟨ad2, cdjB2, sg2, cd2, hA2, hcd2, hsg2, _, _, _, _, _,
      ⟨n2, hn2, hdn, _⟩, _, _⟩ := auth_ok_inv hok
    rw [hA] at hA2
    cases hA2
    rw [hn] at hn2
    cases hn2
    exact hdn

/-- Witness for C1: the concrete response parses sign count 9; with stored
count 9 the cloned-authenticator error is returned, with stored count 0 the
error cannot occur, and a success carries 9. -/
theorem c1_sign_count_monotonicity_witness :
    ((9 : Nat) ≠ 0 ∧ (9 : Nat) ≤ 9 →
      verify_authentication_response testCrypto "cid" testAuthPK 9 testAuthResponse
        "abc" "localhost" =
        Except.error "Sign count verification failed (possible cloned authenticator)") ∧
    ((9 : Nat) = 0 ∨ (9 : Nat) < 9 →
      verify_authentication_response testCrypto "cid" testAuthPK 9 testAuthResponse
        "abc" "localhost" ≠
        Except.error "Sign count verification failed (possible cloned authenticator)") ∧
    (∀ d, verify_authentication_response testCrypto "cid" testAuthPK 9 testAuthResponse
        "abc" "localhost" = Except.ok d → d.sign_count = 9) :=
  c1_sign_count_monotonicity testCrypto "cid" testAuthPK 9 testAuthResponse "abc" "localhost"
    testAuthAD testCDJ [1, 2, 3]
    [("challenge", JValue.str "abc"), ("origin", JValue.str "http://localhost:8000")]
    5 9 (by decide) (by decide) (by decide) (by decide) (by decide) (by decide)
    (by decide) (by decide) (by decide) (by decide) (by decide)

end WebAuthn

namespace WebAuthn

/-- C3 counterexample: the registration ceremony decodes the new
credential's COSE key but performs NO key-type/curve check — with a key map
whose kty (key 1) is 3 rather than 2 (EC2), verification still succeeds and
returns the raw key bytes, so the claim that every ceremony fails on a
non-EC2 key is false at this input. -/
theorem c3_registration_accepts_non_ec2_key :
    (verify_registration_response testCrypto testCache 0 1 badKeyRegResponse "localhost").2 =
      Except.ok ⟨"Bw", [161, 1, 3], 5, "00000000000000000000000000000000"⟩ ∧
    cborLoadsMap [161, 1, 3] = some [(Cbor.int 1, Cbor.int 3)] ∧
    intVal (cborMapGet [(Cbor.int 1, Cbor.int 3)] (Cbor.int 1)) = some 3 :=
  ⟨rfl, rfl, rfl⟩

/-- C3 amended: only the authentication ceremony enforces the key type and
curve: reaching the key-decoding step (all earlier checks in order), a
stored COSE key whose kty is not 2 fails with `Unsupported key type`, and
an EC2 key whose crv is not 1 fails with `Unsupported curve`; registration
stores the raw CBOR key bytes without any such check (see the
counterexample). -/
theorem c3_auth_rejects_unsupported_key
    (C : Crypto) (cid : String) (pk : List Nat) (stored : Nat) (resp : AuthResponse)
    (ch rp : String) (ad cdjB sg : List Nat) (cd : List (String × JValue)) (f n : Nat)
    (m : List (Cbor × Cbor))
    (hA : decode_base64url resp.authenticatorData = some ad)
    (hcd : decode_base64url resp.clientDataJSON = some cdjB)
    (hsg : decode_base64url resp.signature = some sg)
    (hj : json_loads cdjB = some cd)
    (hch : jsonGet cd "challenge" = some (JValue.str ch))
    (ho : originAllowed cd rp = true)
    (hrp : ad.take 32 = C.sha256 (strBytes rp))
    (hf : ad.get? 32 = some f) (hf1 : f &&& 1 ≠ 0) (hf4 : f &&& 4 ≠ 0)
    (hn : beUint32 ((ad.drop 33).take 4) = some n)
    (hmono : ¬ (n ≤ stored ∧ stored ≠ 0))
    (hm : cborLoadsMap pk = some m) :
    (intVal (cborMapGet m (Cbor.int 1)) ≠ some 2 →
      verify_authentication_response C cid pk stored resp ch rp =
        Except.error "Unsupported key type") ∧
    (intVal (cborMapGet m (Cbor.int 1)) = some 2 →
      intVal (cborMapGet m (Cbor.int (-1))) ≠ some 1 →
      verify_authentication_response C cid pk stored resp ch rp =
        Except.error "Unsupported curve") := by
  have hcommon : ∀ res : Except String AuthSuccess,
      ((if intVal (cborMapGet m (Cbor.int 1)) = some 2 then
          if intVal (cborMapGet m (Cbor.int (-1))) = some 1 then
            (match bytesVal (cborMapGet m (Cbor.int (-2))),
                  bytesVal (cborMapGet m (Cbor.int (-3))) with
              | some x, some y =>
                match C.ecdsaVerifyP256 (intFromBytesBE x) (intFromBytesBE y) sg
                    (ad ++ C.sha256 cdjB) with
                | none =>
                  Except.error "Authentication verification failed: signature decode error"
                | some signature_valid =>
                  if signature_valid then Except.ok { sign_count := n }
                  else Except.error "Signature verification failed"
              | _, _ =>
                Except.error "Authentication verification failed: invalid key coordinates")
          else Except.error "Unsupported curve"
        else Except.error "Unsupported key type") = res) →
      verify_authentication_response C cid pk stored resp ch rp = res := by
    intro res hres
    rw [verify_authentication_response]
    simp only [hA, hcd, hsg, hj]
    rw [if_neg (fun hk => hk hch), if_neg (fun hk => hk ho), if_neg (fun hk => hk hrp)]
    simp only [hf]
    rw [if_neg (fun hk => hk ⟨hf1, hf4⟩)]
    simp only [hn]
    rw [if_neg hmono]
    simp only [hm]
    exact hres
  constructor
  · intro hkty
    exact hcommon _ (by rw [if_neg hkty])
  · intro hkty hcrv
    exact hcommon _ (by rw [if_pos hkty, if_neg hcrv])

/-- Witness for the amended C3: the stored key map has kty 3, so the
concrete authentication fails with `Unsupported key type`. -/
theorem c3_auth_rejects_unsupported_key_witness :
    verify_authentication_response testCrypto "cid" badAuthPK 0 testAuthResponse
      "abc" "localhost" = Except.error "Unsupported key type" :=
  (c3_auth_rejects_unsupported_key testCrypto "cid" badAuthPK 0 testAuthResponse
    "abc" "localhost" testAuthAD testCDJ [1, 2, 3]
    [("challenge", JValue.str "abc"), ("origin", JValue.str "http://localhost:8000")]
    5 9 [(Cbor.int 1, Cbor.int 3)]
    (by decide) (by decide) (by decide) (by decide) (by decide) (by decide) (by decide)
    (by decide) (by decide) (by decide) (by decide) (by decide) rfl).1 (by decide)

end WebAuthn

namespace WebAuthn

/-- A successful registration result can only come from the body checks
passing against some stored challenge. -/
theorem reg_response_ok_inv {C : Crypto} {c : Cache} {now : Micros} {uid : Int}
    {resp : RegResponse} {rp : String} {d : RegData}
    (h : (verify_registration_response C c now uid resp rp).2 = Except.ok d) :
    ∃ ch, verify_registration_body C rp ch resp = Except.ok d := by
  rw [verify_registration_response] at h
  rcases hg : get_challenge c now uid with ⟨chOpt, c2⟩
  simp only [hg] at h
  by_cases hf : strFalsy chOpt = true
  · rw [if_pos hf] at h
    exact Except.noConfusion h
  · rw [if_neg hf] at h
    cases hbody : verify_registration_body C rp (chOpt.getD "") resp with
    | error e =>
      rw [hbody] at h
      exact Except.noConfusion h
    | ok d2 =>
      rw [hbody] at h
      have h2 : Except.ok d2 = Except.ok d := h
      cases h2
      exact ⟨chOpt.getD "", hbody⟩

/-- C5: an authenticator-data flags byte (offset 32) without the
user-verified bit 0x04 makes registration verification and authentication
verification both return failure — proved with no assumptions on the rest
of the response, so in particular regardless of challenge, origin, rp-id
hash and signature being otherwise correct. -/
theorem c5_user_verified_flag_required
    (C : Crypto) (cache : Cache) (now : Micros) (uid : Int) (rp chA cid : String)
    (regResp : RegResponse) (authResp : AuthResponse) (pk : List Nat) (stored : Nat)
    (adR adA : List Nat) (fR fA : Nat)
    (hR : (decode_base64url regResp.attestationObject).bind attAuthData = some adR)
    (hfR : adR.get? 32 = some fR) (hvR : fR &&& 4 = 0)
    (hA : decode_base64url authResp.authenticatorData = some adA)
    (hfA : adA.get? 32 = some fA) (hvA : fA &&& 4 = 0) :
    isErr (verify_registration_response C cache now uid regResp rp).2 = true ∧
    isErr (verify_authentication_response C cid pk stored authResp chA rp) = true := by
  constructor
  · cases hres : (verify_registration_response C cache now uid regResp rp).2 with
    | error e => rfl
    | ok d =>
      exfalso
      obtain ⟨ch, hbody⟩ := reg_response_ok_inv hres
      obtain ⟨attB, cdjB, cd, ad, hatt, _, _, _, _, had, _,
        ⟨f, hf, _, hbit4, _⟩, _, _, _, _⟩ := reg_body_ok_inv hbody
      rw [hatt, Option.some_bind, had] at hR
      cases hR
      rw [hfR] at hf
      cases hf
      exact hbit4 hvR
  · cases hres : verify_authentication_response C cid pk stored authResp chA rp with
    | error e => rfl
    | ok d =>
      exfalso
      obtain ⟨ad, cdjB, sg, cd, hA2, _, _, _, _, _, _, ⟨f, hf, _, hbit4⟩, _, _, _⟩ :=
        auth_ok_inv hres
      rw [hA] at hA2
      cases hA2
      rw [hfA] at hf
      cases hf
      exact hbit4 hvA

/-- Attested authenticator data with flags 0x01 only (no user-verified
bit), otherwise shaped like `testRegAuthData`. -/
def lowFlagsRegAD : List Nat :=
  List.replicate 32 0 ++ [1, 0, 0, 0, 5] ++ List.replicate 16 0 ++ [0, 1, 7] ++ [161, 1, 2]

/-- Plain authenticator data with flags 0x01 only. -/
def lowFlagsAuthAD : List Nat := List.replicate 32 0 ++ [1, 0, 0, 0, 9]

/-- Witness for C5: concrete responses with flags byte 0x01 are rejected by
both ceremonies. -/
theorem c5_user_verified_flag_required_witness :
    isErr (verify_registration_response testCrypto testCache 0 1
      ⟨encode_base64url_nopad (mkAttObj lowFlagsRegAD), encode_base64url_nopad testCDJ⟩
      "localhost").2 = true ∧
    isErr (verify_authentication_response testCrypto "cid" testAuthPK 0
      ⟨encode_base64url_nopad lowFlagsAuthAD, encode_base64url_nopad testCDJ,
        encode_base64url_nopad [1, 2, 3]⟩ "abc" "localhost") = true :=
  c5_user_verified_flag_required testCrypto testCache 0 1 "localhost" "abc" "cid"
    ⟨encode_base64url_nopad (mkAttObj lowFlagsRegAD), encode_base64url_nopad testCDJ⟩
    ⟨encode_base64url_nopad lowFlagsAuthAD, encode_base64url_nopad testCDJ,
      encode_base64url_nopad [1, 2, 3]⟩ testAuthPK 0
    lowFlagsRegAD lowFlagsAuthAD 1 1
    (by decide) (by decide) (by decide) (by decide) (by decide) (by decide)

/-- C8: a registration authenticator-data buffer shorter than the 37-byte
fixed header, or shorter than advertised by credentialIdLength, or whose
trailing public-key bytes are not decodable CBOR, makes registration
verification fail (the source rejects through its caught-exception path:
short slices fail `struct.unpack` and an empty or malformed tail fails
`cbor2.loads`); an authentication buffer shorter than 37 bytes likewise
makes authentication verification fail. -/
theorem c8_malformed_authdata_rejected
    (C : Crypto) (cache : Cache) (now : Micros) (uid : Int) (rp chA cid : String)
    (regResp : RegResponse) (authResp : AuthResponse) (pk : List Nat) (stored : Nat)
    (adR adA : List Nat)
    (hR : (decode_base64url regResp.attestationObject).bind attAuthData = some adR)
    (hbad : adR.length < 37 ∨
      (∃ L, beUint16 ((adR.drop 53).take 2) = some L ∧
        (adR.length < 55 + L ∨ cbor2_loads (adR.drop (55 + L)) = none)))
    (hA : decode_base64url authResp.authenticatorData = some adA)
    (hAshort : adA.length < 37) :
    isErr (verify_registration_response C cache now uid regResp rp).2 = true ∧
    isErr (verify_authentication_response C cid pk stored authResp chA rp) = true := by
  constructor
  · cases hres : (verify_registration_response C cache now uid regResp rp).2 with
    | error e => rfl
    | ok d =>
      exfalso
      obtain ⟨ch, hbody⟩ := reg_response_ok_inv hres
      obtain ⟨attB, cdjB, cd, ad, hatt, _, _, _, _, had, _, _, _,
        ⟨L2, hL2, ⟨pk2, hpk2⟩, _, _⟩, _, hlen⟩ := reg_body_ok_inv hbody
      rw [hatt, Option.some_bind, had] at hR
      cases hR
      rcases hbad with hshort | ⟨L, hL, hcase⟩
      · omega
      · rw [hL2] at hL
        cases hL
        rcases hcase with hshort | hnopk
        · rw [List.drop_eq_nil_of_le (by omega), cbor2_loads_nil] at hpk2
          exact Option.noConfusion hpk2
        · rw [hnopk] at hpk2
          exact Option.noConfusion hpk2
  · cases hres : verify_authentication_response C cid pk stored authResp chA rp with
    | error e => rfl
    | ok d =>
      exfalso
      obtain ⟨ad, cdjB, sg, cd, hA2, _, _, _, _, _, _, _, _, _, hlen⟩ := auth_ok_inv hres
      rw [hA] at hA2
      cases hA2
      omega

/-- Witness for C8: ten-byte authenticator-data buffers are rejected by
both ceremonies. -/
theorem c8_malformed_authdata_rejected_witness :
    isErr (verify_registration_response testCrypto testCache 0 1
      ⟨encode_base64url_nopad (mkAttObj (List.replicate 10 0)),
        encode_base64url_nopad testCDJ⟩ "localhost").2 = true ∧
    isErr (verify_authentication_response testCrypto "cid" testAuthPK 0
      ⟨encode_base64url_nopad (List.replicate 10 0), encode_base64url_nopad testCDJ,
        encode_base64url_nopad [1, 2, 3]⟩ "abc" "localhost") = true :=
  c8_malformed_authdata_rejected testCrypto testCache 0 1 "localhost" "abc" "cid"
    ⟨encode_base64url_nopad (mkAttObj (List.replicate 10 0)), encode_base64url_nopad testCDJ⟩
    ⟨encode_base64url_nopad (List.replicate 10 0), encode_base64url_nopad testCDJ,
      encode_base64url_nopad [1, 2, 3]⟩ testAuthPK 0
    (List.replicate 10 0) (List.replicate 10 0)
    (by decide) (Or.inl (by decide)) (by decide) (by decide)

end WebAuthn

namespace WebAuthn

theorem reg_body_ok_forward
    (C : Crypto) (rp ch : String) (resp : RegResponse)
    (attB cdjB : List Nat) (cd : List (String × JValue)) (ad : List Nat) (sc L : Nat)
    (pk : Cbor)
    (hatt : decode_base64url resp.attestationObject = some attB)
    (hcdj : decode_base64url resp.clientDataJSON = some cdjB)
    (hjson : json_loads cdjB = some cd)
    (hch : jsonGet cd "challenge" = some (JValue.str ch))
    (horig : originAllowed cd rp = true)
    (had : attAuthData attB = some ad)
    (hrp : ad.take 32 = C.sha256 (strBytes rp))
    (hfl : ad.get? 32 = some 69)
    (hsc : beUint32 ((ad.drop 33).take 4) = some sc)
    (hL : beUint16 ((ad.drop 53).take 2) = some L)
    (hpk : cbor2_loads (ad.drop (55 + L)) = some pk) :
    verify_registration_body C rp ch resp =
      Except.ok ⟨encode_base64url_nopad ((ad.drop 55).take L), ad.drop (55 + L), sc,
        bytesToHex ((ad.drop 37).take 16)⟩ := by
  rw [verify_registration_body]
  simp only [hatt, hcdj, hjson]
  rw [if_neg (fun hk => hk hch), if_neg (fun hk => hk horig)]
  simp only [had]
  rw [if_neg (fun hk => hk hrp)]
  simp only [hfl]
  rw [if_neg (fun hk => hk
    (by decide : 69 &&& 1 ≠ 0 ∧ 69 &&& 4 ≠ 0 ∧ 69 &&& 64 ≠ 0))]
  simp only [hsc, hL, hpk]

/-- C4: with a live non-empty stored challenge and an attestation object
whose authData carries the configured rp-id hash, flags byte 0x45, a
16-byte aaguid, a credential id of the advertised length and a
CBOR-decodable COSE key, and whose client data carries the stored
challenge and an allowed origin, registration verification succeeds with
credential_id the unpadded base64url encoding of the credential id bytes,
public_key the raw trailing CBOR bytes, sign_count the big-endian uint32
at offset 33, aaguid the hex of bytes 37..52 — and the stored challenge is
cleared. -/
theorem c4_roundtrip_registration
    (C : Crypto) (cache : Cache) (now : Micros) (uid : Int) (rp : String)
    (resp : RegResponse) (e : ChallengeEntry) (attB cdjB : List Nat)
    (cd : List (String × JValue)) (ad : List Nat) (sc L : Nat) (pk : Cbor)
    (hcache : cache uid = some e) (hlive : ¬ now > e.expires_at) (hne : e.challenge ≠ "")
    (hatt : decode_base64url resp.attestationObject = some attB)
    (hcdj : decode_base64url resp.clientDataJSON = some cdjB)
    (hjson : json_loads cdjB = some cd)
    (hch : jsonGet cd "challenge" = some (JValue.str e.challenge))
    (horig : originAllowed cd rp = true)
    (had : attAuthData attB = some ad)
    (hrp : ad.take 32 = C.sha256 (strBytes rp))
    (hfl : ad.get? 32 = some 69)
    (hsc : beUint32 ((ad.drop 33).take 4) = some sc)
    (hL : beUint16 ((ad.drop 53).take 2) = some L)
    (_hlen : 55 + L ≤ ad.length)
    (hpk : cbor2_loads (ad.drop (55 + L)) = some pk) :
    (verify_registration_response C cache now uid resp rp).2 =
      Except.ok ⟨encode_base64url_nopad ((ad.drop 55).take L), ad.drop (55 + L), sc,
        bytesToHex ((ad.drop 37).take 16)⟩ ∧
    (verify_registration_response C cache now uid resp rp).1 uid = none := by
  rw [verify_registration_response]
  simp only [get_challenge_live hcache hlive]
  simp only [strFalsy_some_false hne, Bool.false_eq_true, if_false, Option.getD_some]
  rw [reg_body_ok_forward C rp e.challenge resp attB cdjB cd ad sc L pk hatt hcdj hjson
    hch horig had hrp hfl hsc hL hpk]
  exact ⟨rfl, by simp [clear_challenge]⟩

/-- Witness for C4 at the concrete well-formed registration response. -/
theorem c4_roundtrip_registration_witness :
    (verify_registration_response testCrypto testCache 0 1 testRegResponse "localhost").2 =
      Except.ok ⟨encode_base64url_nopad ((testRegAuthData.drop 55).take 1),
        testRegAuthData.drop 56, 5, bytesToHex ((testRegAuthData.drop 37).take 16)⟩ ∧
    (verify_registration_response testCrypto testCache 0 1 testRegResponse "localhost").1 1 =
      none :=
  c4_roundtrip_registration testCrypto testCache 0 1 "localhost" testRegResponse
    ⟨"abc", 1000000⟩ (mkAttObj testRegAuthData) testCDJ
    [("challenge", JValue.str "abc"), ("origin", JValue.str "http://localhost:8000")]
    testRegAuthData 5 1 (Cbor.map [(Cbor.int 1, Cbor.int 2)])
    rfl (by norm_num) (by decide) (by decide) (by decide) (by decide) (by decide)
    (by decide) (by decide) (by decide) (by decide) (by decide) (by decide)
    (by decide) rfl

end WebAuthn
